import Mathlib

/-!
Verification of the distributed model-based search core of deephyper:
the `History` buffer and `DMBSMPI` coordinator from
`deephyper/search/hps/_dmbs_mpi.py`, and the multi-objective scalarization
functions from `deephyper/skopt/moo/_multiobjective.py`.

The Python code is shallowly embedded: lists stay lists, numpy 1-D float
arrays become `List ℚ`, Python exceptions become `Except PyError`, and the
relevant numpy/Python indexing primitives (`arr[-k:]`, `arr[-k]`,
`np.array(..., dtype="O").T.tolist()`) are modelled exactly, including the
fact that an object-dtype numpy array built from ragged nested lists is a
1-D array of the untouched inner lists (so `.T` is the identity on it).
-/

namespace DeepHyper

/-- Python-level exceptions raised by the embedded code. -/
inductive PyError
  | valueError (msg : String)
  | indexError
  | typeError
deriving DecidableEq, Repr

/-- Dot product of two rational vectors, `np.dot` on equal-length 1-D arrays. -/
def dotQ (a b : List ℚ) : ℚ := (a.zipWith (fun x y => x * y) b).sum

/-- L1 norm of a rational vector, `np.linalg.norm(v, 1)`. -/
def l1norm (a : List ℚ) : ℚ := (a.map (fun x => |x|)).sum

/-- Rows of the transpose of a uniform matrix given as a list of columns of
length `n`: row `i` collects entry `i` of every column. -/
def colsToRows (n : Nat) (cols : List (List A)) : List (List A) :=
  (List.range n).map (fun i => cols.filterMap (fun c => c.get? i))

/-- Embeds `np.array(cols, dtype="O").T.tolist()`.  When every inner list has
the same length the object array is 2-D and `.T` is the matrix transpose;
when the lengths are ragged numpy builds a 1-D array of the inner lists
themselves, `.T` is a no-op, and `.tolist()` returns `cols` unchanged. -/
def npTransposeO (cols : List (List A)) : List (List A) :=
  if cols.all (fun c => c.length = (cols.headD []).length) then
    colsToRows (cols.headD []).length cols
  else
    cols

/-- Python slice `l[-k:]`: the last `k` elements when `1 ≤ k ≤ len`, the whole
list when `k ≥ len`, and also the whole list for `k = 0` (since `-0 = 0`). -/
def pySliceLast (k : Nat) (l : List A) : List A :=
  if k = 0 then l else l.drop (l.length - k)

/-- Python indexing `l[-k]`: element at position `len - k` when
`1 ≤ k ≤ len`, the first element for `k = 0` (since `-0 = 0`), and an
`IndexError` otherwise. -/
def pyNegIndex (k : Nat) (l : List A) : Except PyError A :=
  if hk : k = 0 then
    match l with
    | [] => .error .indexError
    | a :: _ => .ok a
  else if h : k ≤ l.length then
    .ok (l.get ⟨l.length - k, by omega⟩)
  else
    .error .indexError

/-- The `History` class: per-worker log of evaluation records.  `X` is the
type of points, `Y` of objective values, `A` of single info entries (one
record carries a list of them, e.g. `[worker_rank]`). -/
@[ext]
structure History (X Y A : Type) where
  list_x : List X
  list_y : List Y
  keys_infos : List String
  list_infos : List (List A)
  n_buffered : Nat
deriving DecidableEq, Repr

/-- `History.__init__`: all lists empty, `n_buffered = 0`. -/
def History.empty : History X Y A := ⟨[], [], [], [], 0⟩

/-- `History.append_keys_infos`. -/
def History.appendKeysInfos (h : History X Y A) (k : List String) : History X Y A :=
  { h with keys_infos := h.keys_infos ++ k }

/-- `History.append`: push one record and bump the unflushed counter. -/
def History.append (h : History X Y A) (x : X) (y : Y) (infos : List A) :
    History X Y A :=
  { h with
    list_x := h.list_x ++ [x]
    list_y := h.list_y ++ [y]
    list_infos := h.list_infos ++ [infos]
    n_buffered := h.n_buffered + 1 }

/-- `History.extend`: bulk append.  The Python `infos` argument is a dict
from info key to the column of its values; `[v for v in infos.values()]` is
the list of columns (in key order), embedded here directly as `cols`.  The
columns are pushed through `np.array(..., dtype="O").T.tolist()` before
being appended. -/
def History.extend (h : History X Y A) (x : List X) (y : List Y)
    (cols : List (List A)) : History X Y A :=
  { h with
    list_x := h.list_x ++ x
    list_y := h.list_y ++ y
    list_infos := h.list_infos ++ npTransposeO cols
    n_buffered := h.n_buffered + x.length }

/-- `History.length`. -/
def History.length (h : History X Y A) : Nat := h.list_x.length

/-- `History.value`: snapshot of (points, objectives). -/
def History.value (h : History X Y A) : List X × List Y := (h.list_x, h.list_y)

/-- `History.reset_buffer`. -/
def History.resetBuffer (h : History X Y A) : History X Y A :=
  { h with n_buffered := 0 }

/-- `History.infos(k)` with `k` given (the `k is not None` branch).  Line 58
builds `{k: v[-k:] for k, v in zip(self._keys_infos, list_infos)}`: the
comprehension target `k` shadows the numeric parameter, so `v[-k:]` applies
unary minus to the key string and raises `TypeError` on the first pair —
the comprehension completes (with an empty dict) only when the zip is
empty.  Only then does line 59 run, returning the last-`k` points, the
single element `_list_y[-k]` of the objectives (the index `[-k]`, not the
slice `[-k:]`), and the empty mapping. -/
def History.infosK (h : History X Y A) (k : Nat) :
    Except PyError (List X × Y × List (String × List A)) :=
  let cols := npTransposeO h.list_infos
  match h.keys_infos.zip cols with
  | _ :: _ => .error .typeError
  | [] =>
      match pyNegIndex k h.list_y with
      | .error e => .error e
      | .ok yk => .ok (pySliceLast k h.list_x, yk, [])

/-- `History.infos()` with `k = None`: everything, info mapping rebuilt
column-wise. -/
def History.infosAll (h : History X Y A) :
    List X × List Y × List (String × List A) :=
  (h.list_x, h.list_y, h.keys_infos.zip (npTransposeO h.list_infos))

/-- Fold a list of records through `History.append`, one call per record. -/
def History.appendMany (h : History X Y A) (recs : List (X × Y × List A)) :
    History X Y A :=
  recs.foldl (fun h r => h.append r.1 r.2.1 r.2.2) h

/-- Decidable equality of `Except` results, used to evaluate the embedded
code on concrete inputs. -/
instance {E B : Type} [DecidableEq E] [DecidableEq B] :
    DecidableEq (Except E B)
  | .error a, .error b =>
      if h : a = b then .isTrue (by rw [h])
      else .isFalse (fun hc => h (Except.error.inj hc))
  | .error _, .ok _ => .isFalse (fun hc => Except.noConfusion hc)
  | .ok _, .error _ => .isFalse (fun hc => Except.noConfusion hc)
  | .ok a, .ok b =>
      if h : a = b then .isTrue (by rw [h])
      else .isFalse (fun hc => h (Except.ok.inj hc))

/-- The `TERMINATION` sentinel payload (line 16 of the source). -/
def TERMINATION : Nat := 10

/-- A payload delivered to `recv_any`: either the distinguished `TERMINATION`
sentinel or an `(x, y, infos)` evaluation-record triple (the only two payload
shapes the protocol ever sends). -/
inductive Msg (X Y A : Type)
  | termination
  | record (x : X) (y : Y) (infos : List A)
deriving DecidableEq, Repr

/-- The record carried by a payload, if it is not the sentinel. -/
def Msg.toRecord : Msg X Y A → Option (X × Y × List A)
  | .termination => none
  | .record x y infos => some (x, y, infos)

/-- Whether a payload is a record (i.e. compares different from
`TERMINATION`). -/
def Msg.isRecord : Msg X Y A → Bool
  | .termination => false
  | .record _ _ _ => true

/-- The message-processing core of `DMBSMPI.recv_any` (lines 212-240): each
delivered payload is compared against `TERMINATION`; the sentinel is dropped,
any other payload is unpacked as `(x, y, infos)` and appended to the local
history.  `msgs` is the sequence of payloads delivered across all poll
passes, in processing order. -/
def DMBSMPI.recvAny (h : History X Y A) (msgs : List (Msg X Y A)) :
    History X Y A :=
  msgs.foldl
    (fun h m =>
      match m with
      | .termination => h
      | .record x y infos => h.append x y infos)
    h

/-- Recording one evaluation in `DMBSMPI._search` (lines 389-392): the
reported objective `y` is negated (`y = -y  #! we do maximization`) before
`self._history.append(x, y, infos)`. -/
def DMBSMPI.recordEvaluation (h : History X ℚ A) (x : X) (y : ℚ)
    (infos : List A) : History X ℚ A :=
  h.append x (-y) infos

/-- The `objective` column built by `DMBSMPI.gather_results`
(lines 419-431): the history objectives `y_list` are re-negated
(`y_list = -np.array(y_list)`). -/
def DMBSMPI.gatherObjectives (h : History X ℚ A) : List ℚ :=
  h.infosAll.2.1.map (fun y => -y)

/-- The dynamic type of the `timeout` argument of `DMBSMPI.search`: Python
`None`, a Python `int`, or a value of any other type (`type(timeout)` is not
`int`). -/
inductive PyTimeout
  | none
  | int (n : Int)
  | nonInt
deriving DecidableEq, Repr

/-- The timeout validation at the top of `DMBSMPI.search` (lines 284-290):
`None` is accepted; a non-`int` raises `ValueError`; an `int ≤ 0` raises
`ValueError`. -/
def DMBSMPI.validateTimeout : PyTimeout → Except PyError Unit
  | .none => .ok ()
  | .int n => if n ≤ 0 then .error (.valueError "timeout should be > 0") else .ok ()
  | .nonInt => .error (.valueError "timeout should be of type int")

/-- The `while` loop of `DMBSMPI._search` (lines 354-400) for a single-rank
run in the default asynchronous mode (`recv_any` and `send_all` find no
peers; the `tell`/`ask` calls go to the external surrogate model and do not
touch the history).  `evalAt i` abstracts the ask/evaluate pair at history
length `i`; each iteration appends the negated objective with
`infos = [rank]` and resets the buffer.  `fuel` bounds the number of
iterations, since with `max_evals < 0` the source loop never stops. -/
def DMBSMPI.searchLoop (evalAt : Nat → X × ℚ) (rank : ℚ) (maxEvals : Int) :
    Nat → History X ℚ ℚ → History X ℚ ℚ
  | 0, h => h
  | fuel + 1, h =>
      if maxEvals < 0 ∨ (h.length : Int) < maxEvals then
        let p := evalAt h.length
        DMBSMPI.searchLoop evalAt rank maxEvals fuel
          ((DMBSMPI.recordEvaluation h p.1 p.2 [rank]).resetBuffer)
      else h

/-- `DMBSMPI._search` (lines 313-400) for a single-rank asynchronous run:
one full ask-evaluate-record cycle runs unconditionally (lines 318-352,
including `append_keys_infos(["worker_rank"])`) before the `while` condition
`max_evals < 0 or self._history.length() < max_evals` is first tested. -/
def DMBSMPI.searchBody (evalAt : Nat → X × ℚ) (rank : ℚ) (maxEvals : Int)
    (fuel : Nat) : History X ℚ ℚ :=
  let h0 := (History.empty.appendKeysInfos ["worker_rank"] : History X ℚ ℚ)
  let p := evalAt 0
  let h1 := (DMBSMPI.recordEvaluation h0 p.1 p.2 [rank]).resetBuffer
  DMBSMPI.searchLoop evalAt rank maxEvals fuel h1

/-- `DMBSMPI.search` (lines 274-295): the timeout is validated first; only
when validation passes does `_search` run (so an invalid timeout aborts the
call before any evaluation is performed). -/
def DMBSMPI.searchChecked (t : PyTimeout) (evalAt : Nat → X × ℚ) (rank : ℚ)
    (maxEvals : Int) (fuel : Nat) : Except PyError (History X ℚ ℚ) :=
  match DMBSMPI.validateTimeout t with
  | .error e => .error e
  | .ok _ => .ok (DMBSMPI.searchBody evalAt rank maxEvals fuel)

/-- A Python value passed to `scalarize`: a scalar (`np.ndim == 0`) or a 1-D
vector (`np.ndim == 1`). -/
inductive PyY
  | scalar (q : ℚ)
  | vector (l : List ℚ)
deriving DecidableEq, Repr

/-- `np.max` over a 1-D rational array (well-defined on nonempty input, the
only way the embedded code reaches it). -/
def listMax (l : List ℚ) : ℚ := l.foldl max (l.headD 0)

/-- The three scalarization variants of `_multiobjective.py`. -/
inductive MoVariant
  | linear
  | chebyshev
  | pbi
deriving DecidableEq, Repr

/-- State shared by `MoScalarFunction` and its subclasses: `_n_objectives`,
`_utopia_point`, `_scaling`, the subclass `_weight`, and the PBI `_penalty`
(only read by the PBI variant).  The constructor draws `_weight` at random;
here it is a free field so theorems quantify over every possible draw. -/
structure MoScalarFunction where
  n_objectives : Nat
  utopia_point : List ℚ
  scaling : List ℚ
  weight : List ℚ
  penalty : ℚ
deriving DecidableEq, Repr

/-- `MoPBIFunction._weightnorm = np.linalg.norm(self._weight) ** 2`: in exact
real arithmetic the squared Euclidean norm is the dot product of the weight
with itself. -/
def MoScalarFunction.weightnorm (f : MoScalarFunction) : ℚ :=
  dotQ f.weight f.weight

/-- `MoScalarFunction._check_shape` (lines 41-49): a scalar is accepted only
when `n_objectives == 1`; a 1-D value only when its length equals
`n_objectives`. -/
def checkShape (n : Nat) (y : PyY) : Bool :=
  match y with
  | .scalar _ => n == 1
  | .vector l => l.length == n

/-- The `ValueError` raised by `_check_shape` (the source message interpolates
the value of `n_objectives`; the message text is fixed here). -/
def shapeErr : PyError :=
  .valueError "expected y to be a scalar or 1-D array of length n_objectives"

/-- `MoLinearFunction._scalarize`: `np.dot(self._weight, np.asarray(yi))`. -/
def MoScalarFunction.linearScalarize (f : MoScalarFunction) (yi : List ℚ) : ℚ :=
  dotQ f.weight yi

/-- `MoChebyshevFunction._scalarize`: the first line
`yi = np.dot(self._scaling, np.asarray(yi) - self._utopia_point)` is a dot
product of two 1-D arrays and collapses `yi` to a scalar; the result is
`np.max(self._weight * np.abs(yi))`, the largest weight entry scaled by the
absolute value of that scalar. -/
def MoScalarFunction.chebyshevScalarize (f : MoScalarFunction) (yi : List ℚ) : ℚ :=
  let s := dotQ f.scaling (yi.zipWith (fun a b => a - b) f.utopia_point)
  listMax (f.weight.map (fun w => w * |s|))

/-- `MoPBIFunction._scalarize` (lines 141-145), step by step:
`yi = np.dot(self._scaling, np.asarray(yi) - self._utopia_point)` collapses
the input to the scalar `s` (a dot product, not an elementwise product);
`d1 = np.dot(self._weight, yi) / self._weightnorm` is then `np.dot` of a
vector with a scalar, i.e. the vector `weight * s`, divided by the squared
weight norm — a vector; `d2 = np.linalg.norm(yi - d1 * self._weight, 1)`
broadcasts the scalar `s` against the vector `d1 * weight`; the returned
`d1 + self._penalty * d2` is a vector of length `n_objectives`. -/
def MoScalarFunction.pbiScalarize (f : MoScalarFunction) (yi : List ℚ) :
    List ℚ :=
  let s := dotQ f.scaling (yi.zipWith (fun a b => a - b) f.utopia_point)
  let d1 := f.weight.map (fun w => w * s / f.weightnorm)
  let d2 := l1norm ((d1.zipWith (fun a b => a * b) f.weight).map (fun t => s - t))
  d1.map (fun v => v + f.penalty * d2)

/-- Amended PBI formula, written in the spec's vocabulary but following the
code: the first line collapses the input to the scalar
`s = dot(scaling, y - utopia)`; `d1` is the vector `(s / ‖w‖²) · w`;
`d2 = ‖s·1 - d1 ⊙ w‖₁`; the result is the vector `d1 + penalty·d2·1`. -/
def pbiAmendedSpec (f : MoScalarFunction) (y : List ℚ) : List ℚ :=
  let s := dotQ f.scaling (y.zipWith (fun a b => a - b) f.utopia_point)
  let wn := dotQ f.weight f.weight
  let d1 := f.weight.map (fun w => (s / wn) * w)
  let d2 := l1norm ((d1.zipWith (fun a b => a * b) f.weight).map (fun t => s - t))
  d1.map (fun v => v + f.penalty * d2)

/-- Dispatch of the abstract `_scalarize` to the variant implementations.
The Linear and Chebyshev variants return scalars; the PBI variant, as
written, returns a vector. -/
def MoScalarFunction.scalarizeImpl (f : MoScalarFunction) (v : MoVariant)
    (yi : List ℚ) : PyY :=
  match v with
  | .linear => .scalar (f.linearScalarize yi)
  | .chebyshev => .scalar (f.chebyshevScalarize yi)
  | .pbi => .vector (f.pbiScalarize yi)

/-- `MoScalarFunction.scalarize` (lines 51-63): `_check_shape` first, then a
scalar input (`np.ndim(y) == 0`) is returned unchanged without touching
`_scalarize`, and a vector input is passed to the variant `_scalarize`. -/
def MoScalarFunction.scalarize (f : MoScalarFunction) (v : MoVariant)
    (y : PyY) : Except PyError PyY :=
  if checkShape f.n_objectives y then
    match y with
    | .scalar q => .ok (.scalar q)
    | .vector l => .ok (f.scalarizeImpl v l)
  else
    .error shapeErr

/-- The validation phase of `MoScalarFunction.normalize` (lines 74-77): the
input is a list (`is_listlike`, guaranteed by the embedding's type) whose
elements are each passed through `_check_shape` in order; the first failing
element raises.  The subsequent update of `_utopia_point`/`_scaling`
(lines 78-81) is unreachable when a check fails and is not needed by the
claims below. -/
def MoScalarFunction.normalizeChecks (f : MoScalarFunction) :
    List PyY → Except PyError Unit
  | [] => .ok ()
  | y :: ys =>
      if checkShape f.n_objectives y then f.normalizeChecks ys
      else .error shapeErr

/-- The PBI instance of the spec's literal example: `n_objectives = 2`,
`utopia_point = [0, 0]`, all-ones scaling (the constructor default),
`weight = [1, 1]`, `penalty = 100`. -/
def pbiExample : MoScalarFunction := ⟨2, [0, 0], [1, 1], [1, 1], 100⟩

/-- A single-objective instance (`n_objectives = 1`, constructor defaults). -/
def moExample1 : MoScalarFunction := ⟨1, [0], [1], [1], 100⟩

/-! ## Helper lemmas -/

theorem History.appendMany_eq (h : History X Y A)
    (recs : List (X × Y × List A)) :
    h.appendMany recs =
      ⟨h.list_x ++ recs.map (fun r => r.1),
       h.list_y ++ recs.map (fun r => r.2.1),
       h.keys_infos,
       h.list_infos ++ recs.map (fun r => r.2.2),
       h.n_buffered + recs.length⟩ := by
  induction recs generalizing h with
  | nil => simp [appendMany]
  | cons r rs ih =>
      simp only [appendMany, List.foldl_cons] at *
      rw [ih]
      ext1 <;> simp [History.append]
      omega

theorem Msg.length_filterMap_toRecord (msgs : List (Msg X Y A)) :
    (msgs.filterMap Msg.toRecord).length = msgs.countP Msg.isRecord := by
  induction msgs with
  | nil => rfl
  | cons m ms ih =>
      cases m <;>
        simp [Msg.toRecord, Msg.isRecord, List.countP_cons, List.filterMap_cons, ih]

theorem DMBSMPI.recvAny_eq_appendMany (h : History X Y A)
    (msgs : List (Msg X Y A)) :
    DMBSMPI.recvAny h msgs = h.appendMany (msgs.filterMap Msg.toRecord) := by
  induction msgs generalizing h with
  | nil => rfl
  | cons m ms ih =>
      cases m with
      | termination =>
          simpa [DMBSMPI.recvAny, History.appendMany, List.filterMap_cons,
            Msg.toRecord] using ih h
      | record x y infos =>
          simpa [DMBSMPI.recvAny, History.appendMany, List.filterMap_cons,
            Msg.toRecord] using ih (h.append x y infos)

/-! ## Claims -/

/-- C1: for every sequence of payloads delivered to `recv_any`, a
`TERMINATION` sentinel is discarded and never causes a history append, while
every record payload causes exactly one append of that record, in order: the
resulting history is the initial one with precisely the record payloads
appended, and its length grows by exactly the number of record payloads. -/
theorem recv_any_sentinel_isolation (h : History X Y A)
    (msgs : List (Msg X Y A)) :
    DMBSMPI.recvAny h msgs = h.appendMany (msgs.filterMap Msg.toRecord) ∧
    (DMBSMPI.recvAny h msgs).length = h.length + msgs.countP Msg.isRecord := by
  refine ⟨DMBSMPI.recvAny_eq_appendMany h msgs, ?_⟩
  rw [DMBSMPI.recvAny_eq_appendMany h msgs, History.appendMany_eq]
  simp [History.length, Msg.length_filterMap_toRecord]

/-- C4: N single `append` calls on an empty History give exactly the same
History (length, point list, objective list, info rows, buffered count) as
one `extend` call with the equivalent bulk arguments, where the per-record
info tuples `rows` are the transpose of the key-to-column info mapping
`cols`. -/
theorem append_extend_equivalence (n : Nat) (xs : List X) (ys : List Y)
    (cols rows : List (List A))
    (hx : xs.length = n) (hy : ys.length = n)
    (hcols : cols ≠ []) (hc : ∀ c ∈ cols, c.length = n)
    (hrows : rows = colsToRows n cols) :
    History.appendMany History.empty (xs.zip (ys.zip rows)) =
      History.empty.extend xs ys cols := by
  subst hrows
  set rows := colsToRows n cols with hrows
  have hrl : rows.length = n := by simp [hrows, colsToRows]
  have hzl : (ys.zip rows).length = n := by simp [hy, hrl]
  have h1 : (xs.zip (ys.zip rows)).map (fun r => r.1) = xs :=
    List.map_fst_zip _ _ (by omega)
  have h2 : (xs.zip (ys.zip rows)).map (fun r => r.2) = ys.zip rows :=
    List.map_snd_zip _ _ (by omega)
  have h3 : (xs.zip (ys.zip rows)).map (fun r => r.2.1) = ys := by
    rw [show (fun (r : X × Y × List A) => r.2.1) =
          (Prod.fst ∘ Prod.snd) from rfl, ← List.map_map, h2]
    exact List.map_fst_zip _ _ (by omega)
  have h4 : (xs.zip (ys.zip rows)).map (fun r => r.2.2) = rows := by
    rw [show (fun (r : X × Y × List A) => r.2.2) =
          (Prod.snd ∘ Prod.snd) from rfl, ← List.map_map, h2]
    exact List.map_snd_zip _ _ (by omega)
  have hhead : (cols.headD []).length = n := by
    cases cols with
    | nil => exact absurd rfl hcols
    | cons c cs => exact hc c (List.mem_cons_self c cs)
  have htr : npTransposeO cols = colsToRows n cols := by
    rw [npTransposeO, if_pos, hhead]
    simp only [List.all_eq_true, decide_eq_true_eq]
    intro c hcmem
    rw [hc c hcmem, hhead]
  rw [History.appendMany_eq]
  ext1 <;>
    simp [History.extend, History.empty, h1, h3, h4, htr, List.length_zip,
      hx, hy, hrl]

/-- C4 witness: two records, two info keys. -/
theorem append_extend_equivalence_witness :
    History.appendMany (History.empty : History ℕ ℕ ℕ)
        ([1, 2].zip ([10, 20].zip [[5, 7], [6, 8]])) =
      History.empty.extend [1, 2] [10, 20] [[5, 6], [7, 8]] :=
  append_extend_equivalence 2 [1, 2] [10, 20] [[5, 6], [7, 8]] [[5, 7], [6, 8]]
    rfl rfl (by decide) (by decide) (by decide)

/-- C5 counterexample: `extend` with two points but an info column of length
one (`cols = [[1, 2], [3]]`) does not fail: it returns normally, appending
the untransposed columns as if they were per-record info rows. -/
theorem extend_shape_mismatch_counterexample :
    (History.empty.extend [0, 1] [10, 20] [[1, 2], [3]] : History ℕ ℕ ℕ) =
      ⟨[0, 1], [10, 20], [], [[1, 2], [3]], 2⟩ := by
  decide

/-- C5 amended: `History.extend` performs no shape validation.  When the info
value sequences have unequal lengths no error is raised: the object-dtype
numpy array built from the ragged columns is 1-D, its transpose is the
identity, and the raw column lists are appended as if they were per-record
info rows, while points and objectives are appended unconditionally. -/
theorem extend_ragged_appends_columns (h : History X Y A) (xs : List X)
    (ys : List Y) (cols : List (List A))
    (hragged : ¬ ∀ c ∈ cols, c.length = (cols.headD []).length) :
    h.extend xs ys cols =
      ⟨h.list_x ++ xs, h.list_y ++ ys, h.keys_infos, h.list_infos ++ cols,
       h.n_buffered + xs.length⟩ := by
  have hall : ¬ (cols.all (fun c => c.length = (cols.headD []).length) = true) := by
    simp only [List.all_eq_true, decide_eq_true_eq]
    exact hragged
  rw [History.extend, npTransposeO, if_neg hall]

/-- C5 amended witness. -/
theorem extend_ragged_appends_columns_witness :
    (History.empty.extend [0, 1] [10, 20] [[1, 2], [3]] : History ℕ ℕ ℕ) =
      ⟨[0, 1], [10, 20], [], [[1, 2], [3]], 2⟩ :=
  extend_ragged_appends_columns History.empty [0, 1] [10, 20] [[1, 2], [3]]
    (by decide)

/-- C3, evaluated at the failing inputs.  With the run's standard key set
(`["worker_rank"]`) and two records, `infos(k)` raises `TypeError` both for
`k = 2` (within the length, where the claim expects the last-two records
returned) and for `k = 3` (beyond the length, where the claim expects an
out-of-range failure): line 58's comprehension target `k` shadows the
numeric parameter, so `v[-k:]` applies unary minus to the key string.  With
an empty key set — the only way line 59 is reached — the objectives
component of `infos(2)` is the single value `10`, since the source writes
the index `_list_y[-2]` where the slice `[-2:]` is intended, and `infos(3)`
raises `IndexError`. -/
theorem infos_k_shadowed_slice_slip :
    ((((History.empty : History ℕ ℕ ℕ).appendKeysInfos
          ["worker_rank"]).append 0 10 [5]).append 1 20 [6]).infosK 2 =
        .error .typeError ∧
    ((((History.empty : History ℕ ℕ ℕ).appendKeysInfos
          ["worker_rank"]).append 0 10 [5]).append 1 20 [6]).infosK 3 =
        .error .typeError ∧
    (((History.empty : History ℕ ℕ ℕ).append 0 10 [5]).append 1 20 [6]).infosK 2 =
        .ok ([0, 1], 10, []) ∧
    (((History.empty : History ℕ ℕ ℕ).append 0 10 [5]).append 1 20 [6]).infosK 3 =
        .error .indexError := by
  exact ⟨rfl, rfl, rfl, rfl⟩

/-- C6: for every sequence of evaluations recorded by the coordinator, the
stored objective is the negation of the reported one, and the
`gather_results` objective column re-negates, so the final `objective`
column equals the originally reported values. -/
theorem objective_negation_roundtrip (recs : List (X × ℚ × List A)) :
    DMBSMPI.gatherObjectives
        (recs.foldl
          (fun h r => DMBSMPI.recordEvaluation h r.1 r.2.1 r.2.2)
          History.empty) =
      recs.map (fun r => r.2.1) := by
  have h1 : recs.foldl
        (fun h r => DMBSMPI.recordEvaluation h r.1 r.2.1 r.2.2)
        (History.empty : History X ℚ A) =
      History.appendMany History.empty
        (recs.map (fun r => (r.1, -r.2.1, r.2.2))) := by
    rw [History.appendMany, List.foldl_map]
    rfl
  rw [h1, History.appendMany_eq]
  simp [DMBSMPI.gatherObjectives, History.infosAll, History.empty,
    List.map_map, Function.comp]

/-- C9: the timeout validation accepts exactly `None` or a positive `int`;
for every other configured timeout, `search` raises synchronously before the
search body runs, so no evaluation is performed. -/
theorem timeout_validation (t : PyTimeout) :
    (DMBSMPI.validateTimeout t = .ok () ↔
      t = .none ∨ ∃ n : Int, 0 < n ∧ t = .int n) ∧
    (∀ (evalAt : Nat → ℕ × ℚ) (rank : ℚ) (maxEvals : Int) (fuel : Nat),
      ¬(t = .none ∨ ∃ n : Int, 0 < n ∧ t = .int n) →
      ∃ e, DMBSMPI.searchChecked t evalAt rank maxEvals fuel = .error e) := by
  have hiff : DMBSMPI.validateTimeout t = .ok () ↔
      t = .none ∨ ∃ n : Int, 0 < n ∧ t = .int n := by
    cases t with
    | none => simp [DMBSMPI.validateTimeout]
    | int n =>
        rw [show DMBSMPI.validateTimeout (.int n) =
              (if n ≤ 0 then .error (.valueError "timeout should be > 0")
               else .ok ()) from rfl]
        by_cases hn : n ≤ 0
        · rw [if_pos hn]
          constructor
          · intro h
            exact Except.noConfusion h
          · rintro (h | ⟨m, hm, h⟩)
            · exact PyTimeout.noConfusion h
            · injection h with h
              exact absurd hm (by omega)
        · rw [if_neg hn]
          exact ⟨fun _ => Or.inr ⟨n, by omega, rfl⟩, fun _ => rfl⟩
    | nonInt => simp [DMBSMPI.validateTimeout]
  refine ⟨hiff, fun evalAt rank maxEvals fuel hbad => ?_⟩
  have hne : DMBSMPI.validateTimeout t ≠ .ok () := fun h => hbad (hiff.mp h)
  rw [DMBSMPI.searchChecked]
  cases hv : DMBSMPI.validateTimeout t with
  | error e => exact ⟨e, rfl⟩
  | ok u => cases u; exact absurd hv hne

/-- C9 witness: `timeout = 0` (a non-positive `int`) makes `search` abort
with an error. -/
theorem timeout_validation_witness :
    ∃ e, DMBSMPI.searchChecked (.int 0) (fun _ => (0, 0)) 0 5 10 = .error e :=
  (timeout_validation (.int 0)).2 (fun _ => (0, 0)) 0 5 10 (by
    rintro (h | ⟨n, hn, h⟩)
    · exact PyTimeout.noConfusion h
    · injection h with h
      omega)

/-- C10: one full ask-evaluate-record cycle runs before the `max_evals` stop
condition is checked for the first time: with `max_evals = 0` the search
still performs and records exactly one evaluation (its point and negated
objective), for every evaluation stream and every loop fuel. -/
theorem max_evals_zero_still_one_eval (evalAt : Nat → X × ℚ) (rank : ℚ)
    (fuel : Nat) :
    (DMBSMPI.searchBody evalAt rank 0 fuel).length = 1 ∧
    (DMBSMPI.searchBody evalAt rank 0 fuel).list_x = [(evalAt 0).1] ∧
    (DMBSMPI.searchBody evalAt rank 0 fuel).list_y = [-(evalAt 0).2] := by
  have hloop : DMBSMPI.searchLoop evalAt rank 0 fuel
      ⟨[(evalAt 0).1], [-(evalAt 0).2], ["worker_rank"], [[rank]], 0⟩ =
      ⟨[(evalAt 0).1], [-(evalAt 0).2], ["worker_rank"], [[rank]], 0⟩ := by
    cases fuel with
    | zero => rfl
    | succ f => simp [DMBSMPI.searchLoop, History.length]
  have hb : DMBSMPI.searchBody evalAt rank 0 fuel =
      ⟨[(evalAt 0).1], [-(evalAt 0).2], ["worker_rank"], [[rank]], 0⟩ := by
    simp only [DMBSMPI.searchBody, DMBSMPI.recordEvaluation, History.append,
      History.appendKeysInfos, History.resetBuffer, History.empty]
    simpa using hloop
  rw [hb]
  exact ⟨rfl, rfl, rfl⟩

/-- C2 counterexample: with `weight = [1, 1]`, `utopia = [0, 0]`, all-ones
scaling, `penalty = 100` and input `y = [3, 4]`, the PBI scalarization first
collapses `y` to the scalar `dot(scaling, y - utopia) = 7` (a dot product,
not an elementwise scaling), so it returns the vector
`[703.5, 703.5] = [1407/2, 1407/2]`, not the claimed scalar `53.5`. -/
theorem pbi_example_counterexample :
    pbiExample.scalarize .pbi (.vector [3, 4]) =
        .ok (.vector [1407/2, 1407/2]) ∧
    pbiExample.scalarize .pbi (.vector [3, 4]) ≠ .ok (.scalar (107/2)) := by
  have hval : pbiExample.scalarize .pbi (.vector [3, 4]) =
      .ok (.vector [1407/2, 1407/2]) := by
    norm_num [MoScalarFunction.scalarize, MoScalarFunction.scalarizeImpl,
      MoScalarFunction.pbiScalarize, MoScalarFunction.weightnorm, pbiExample,
      checkShape, dotQ, l1norm, abs_of_nonneg]
  refine ⟨hval, ?_⟩
  rw [hval]
  intro hc
  exact PyY.noConfusion (Except.ok.inj hc)

/-- C2 amended: for every parameterization and vector input, the PBI
scalarization computes the scalar `s = dot(scaling, y - utopia)`, the vector
`d1 = (s / ‖w‖²) · w`, the scalar `d2 = ‖s·1 - d1 ⊙ w‖₁`, and returns the
vector `d1 + penalty·d2·1` (of length `n_objectives`); at the spec's literal
example the returned value is the vector `[703.5, 703.5]`. -/
theorem pbi_scalarize_follows_amended_formula :
    (∀ (f : MoScalarFunction) (y : List ℚ),
        f.pbiScalarize y = pbiAmendedSpec f y) ∧
    pbiExample.scalarize .pbi (.vector [3, 4]) =
        .ok (.vector [1407/2, 1407/2]) := by
  constructor
  · intro f y
    have hfun : ∀ s wn w : ℚ, w * s / wn = s / wn * w := by
      intro s wn w
      ring
    simp only [MoScalarFunction.pbiScalarize, pbiAmendedSpec,
      MoScalarFunction.weightnorm, hfun]
  · norm_num [MoScalarFunction.scalarize, MoScalarFunction.scalarizeImpl,
      MoScalarFunction.pbiScalarize, MoScalarFunction.weightnorm, pbiExample,
      checkShape, dotQ, l1norm, abs_of_nonneg]

/-- C7: for every scalarization variant, every parameterization with
`n_objectives = 1`, and every scalar input, `scalarize` returns the input
unchanged without invoking the variant `_scalarize`. -/
theorem scalarize_scalar_identity (v : MoVariant) (f : MoScalarFunction)
    (q : ℚ) (h1 : f.n_objectives = 1) :
    f.scalarize v (.scalar q) = .ok (.scalar q) := by
  simp [MoScalarFunction.scalarize, checkShape, h1]

/-- C7 witness: the PBI variant with `n_objectives = 1` on the scalar `5`. -/
theorem scalarize_scalar_identity_witness :
    moExample1.scalarize .pbi (.scalar 5) = .ok (.scalar 5) :=
  scalarize_scalar_identity .pbi moExample1 5 rfl

/-- C8: every variant's `scalarize` raises the `_check_shape` error on a
vector whose length differs from `n_objectives`, and `normalize` raises the
same error whenever some element of its input is a vector of mismatched
length; neither returns normally on such input. -/
theorem shape_mismatch_errors :
    (∀ (v : MoVariant) (f : MoScalarFunction) (l : List ℚ),
        l.length ≠ f.n_objectives →
        f.scalarize v (.vector l) = .error shapeErr) ∧
    (∀ (f : MoScalarFunction) (yi : List PyY) (l : List ℚ),
        PyY.vector l ∈ yi → l.length ≠ f.n_objectives →
        f.normalizeChecks yi = .error shapeErr) := by
  constructor
  · intro v f l hl
    simp [MoScalarFunction.scalarize, checkShape, hl]
  · intro f yi l hmem hl
    induction yi with
    | nil => cases hmem
    | cons y ys ih =>
        rcases List.mem_cons.mp hmem with h | h
        · subst h
          simp [MoScalarFunction.normalizeChecks, checkShape, hl]
        · by_cases hcs : checkShape f.n_objectives y = true
          · simp only [MoScalarFunction.normalizeChecks, hcs, if_true]
            exact ih h
          · simp [MoScalarFunction.normalizeChecks, hcs]

/-- C8 witness: a length-3 vector against `n_objectives = 1`, for both
`scalarize` and `normalize`. -/
theorem shape_mismatch_errors_witness :
    moExample1.scalarize .linear (.vector [1, 2, 3]) = .error shapeErr ∧
    moExample1.normalizeChecks [.vector [1, 2, 3]] = .error shapeErr :=
  ⟨shape_mismatch_errors.1 .linear moExample1 [1, 2, 3] (by decide),
   shape_mismatch_errors.2 moExample1 [.vector [1, 2, 3]] [1, 2, 3]
     (by simp) (by decide)⟩

end DeepHyper
